import Mathlib

/-!
Shallow embedding of the `SQLiteMetadataStore` component of the repository
(`backend/src/implementations/sqlite_metadata_store.py`) together with the
`Document` / `DocumentType` data model (`backend/src/models.py`).

Modelling conventions:
* Python `datetime` values are modelled abstractly as natural numbers
  (`Datetime`), with `Datetime.isoformat` an injective rendering into strings
  and `fromisoformat` its partial inverse, rejecting every string outside the
  range of `isoformat` (such as `"None"` or `"garbage"`).  `fromtimestamp`
  models `datetime.fromtimestamp` on integer epochs (total on the model).
* SQLite storage-class values reachable in the `documents` table are modelled
  by `SQLValue` (`NULL`, `INTEGER`, `TEXT`); the store only ever writes text
  or `NULL`, integers cover numeric `date_added` values found in pre-existing
  rows.
* The `documents` table is a list of `Row`s in insertion order; the database
  file persists across `close`/re-open, so it lives in `StoreState` next to
  the two connection flags (`_conn`, `_initialized` in the source).
* Python exceptions are explicit: every mutating operation returns its
  resulting state and an `Except StoreError` result.  `aiosqlite` driver
  faults that the source catches with `except aiosqlite.Error` are injected
  through an explicit `fault : Bool` argument on `update` / `delete`; the
  deterministic integrity errors (duplicate primary key, NOT NULL violation)
  are modelled directly from the schema.
* Python dicts (`filters`, `updates`, `Document.metadata`) are association
  lists in iteration order; values are modelled by `PyVal`
  (`None` / `str` / `DocumentType` instance), the cases the claims range over.
-/

/-- Models Python `datetime`: an abstract timestamp. -/
abbrev Datetime := Nat

/-- Models `datetime.isoformat`: an injective rendering of a timestamp into a
string (the concrete character encoding is a model; only injectivity and
invertibility by `fromisoformat` matter). -/
def Datetime.isoformat (t : Datetime) : String :=
  String.mk (List.replicate t 'T')

/-- Models `datetime.fromisoformat`: partial inverse of `Datetime.isoformat`,
failing (raising `ValueError` in Python, `none` here) on any string that is
not a rendered timestamp. -/
def fromisoformat (s : String) : Option Datetime :=
  if s.data.all (· == 'T') then some s.data.length else none

/-- Models `datetime.fromtimestamp` on integer epoch values. -/
def fromtimestamp (n : Int) : Datetime :=
  n.toNat

/-- `DocumentType` enum from `backend/src/models.py`. -/
inductive DocumentType where
  | pdf
  | docx
  | html
  | txt
  | md
deriving DecidableEq

/-- The `.value` string code of each `DocumentType` member. -/
def DocumentType.value : DocumentType → String
  | .pdf => "pdf"
  | .docx => "docx"
  | .html => "html"
  | .txt => "txt"
  | .md => "md"

/-- Models the enum constructor `DocumentType(code)`: returns the member whose
`.value` is `code`, or fails (`ValueError` in Python) when the code is not
recognized. -/
def DocumentType.ofCode (s : String) : Option DocumentType :=
  if s = "pdf" then some .pdf
  else if s = "docx" then some .docx
  else if s = "html" then some .html
  else if s = "txt" then some .txt
  else if s = "md" then some .md
  else none

/-- Values of a Python dict entry as the store's code inspects them: `None`,
a plain string, or a `DocumentType` enum instance. -/
inductive PyVal where
  | pynone
  | pystr (s : String)
  | pytype (t : DocumentType)
deriving DecidableEq

/-- The `Document` pydantic entity (`backend/src/models.py`), restricted to
the fields the metadata store touches.  `metadata` is a dict modelled as an
association list. -/
structure Document where
  id : String
  title : String
  author : Option String
  publication_date : Option String
  document_type : DocumentType
  date_added : Datetime
  file_path : Option String
  metadata : List (String × PyVal)
  source : Option String
deriving DecidableEq

/-- A SQLite storage-class value as surfaced by `aiosqlite` for the
`documents` table: `NULL`, an `INTEGER`, or `TEXT`. -/
inductive SQLValue where
  | null
  | int (n : Int)
  | text (s : String)
deriving DecidableEq

/-- Models Python `str()` applied to a row value that is neither `str`,
`int`/`float` nor `datetime` (the `else` branch of `_row_to_document`): the
only such reachable value is `NULL`, whose `str()` is `"None"`. -/
def SQLValue.pystr : SQLValue → String
  | .null => "None"
  | .int n => toString n
  | .text s => s

/-- One row of the `documents` table.  `id`, `title` and `document_type` are
`TEXT NOT NULL` columns only ever holding text; `date_added` may hold any
storage class in pre-existing data. -/
structure Row where
  id : String
  title : String
  author : Option String
  publication_date : Option String
  document_type : String
  date_added : SQLValue
  file_path : Option String
deriving DecidableEq

/-- The column value of a row under a column name, as SQLite sees it. -/
def Row.col (r : Row) : String → SQLValue
  | "id" => .text r.id
  | "title" => .text r.title
  | "author" => match r.author with | some s => .text s | none => .null
  | "publication_date" =>
      match r.publication_date with | some s => .text s | none => .null
  | "document_type" => .text r.document_type
  | "date_added" => r.date_added
  | "file_path" => match r.file_path with | some s => .text s | none => .null
  | _ => .null

/-- State of one `SQLiteMetadataStore` instance plus its database file:
`connOpen` models `_conn is not None`, `isInit` models `_initialized`, and
`db` is the contents of the `documents` table (which persists across
`close`). -/
structure StoreState where
  connOpen : Bool
  isInit : Bool
  db : List Row
deriving DecidableEq

/-- Errors surfaced to callers: `runtimeError` models the `RuntimeError` of
`_ensure_initialized`, `integrityError` models `aiosqlite.IntegrityError`
re-raised by `add_document_metadata`. -/
inductive StoreError where
  | runtimeError
  | integrityError
deriving DecidableEq

/-- Decidable equality of `Except` results, used to evaluate concrete runs of
the store operations. -/
instance {ε α : Type _} [DecidableEq ε] [DecidableEq α] :
    DecidableEq (Except ε α) := fun a b =>
  match a, b with
  | .error e₁, .error e₂ =>
      if h : e₁ = e₂ then .isTrue (by rw [h])
      else .isFalse (by intro hc; injection hc; contradiction)
  | .ok v₁, .ok v₂ =>
      if h : v₁ = v₂ then .isTrue (by rw [h])
      else .isFalse (by intro hc; injection hc; contradiction)
  | .error _, .ok _ => .isFalse (by intro hc; exact Except.noConfusion hc)
  | .ok _, .error _ => .isFalse (by intro hc; exact Except.noConfusion hc)

/-- `SQLiteMetadataStore.__init__` over a database file with contents `db`. -/
def StoreState.new (db : List Row) : StoreState :=
  ⟨false, false, db⟩

/-- `_ensure_initialized` succeeds exactly when this holds. -/
def StoreState.ready (st : StoreState) : Bool :=
  st.isInit && st.connOpen

/-- `SQLiteMetadataStore.initialize`: no-op when already initialized,
otherwise opens the connection and creates the table if absent (never
touching existing rows). -/
def StoreState.initStore (st : StoreState) : StoreState :=
  if st.isInit then st
  else { st with connOpen := true, isInit := true }

/-- `SQLiteMetadataStore.close`: closes the connection and clears the
initialized flag when a connection is held, otherwise a no-op. -/
def StoreState.closeStore (st : StoreState) : StoreState :=
  if st.connOpen then { st with connOpen := false, isInit := false }
  else st

/-- `_row_to_document`'s `date_added` handling: ISO strings are parsed,
numeric values go through `fromtimestamp`, anything else is stringified and
re-parsed, failing the row when that fails too. -/
def parseDateAdded : SQLValue → Option Datetime
  | .text s => fromisoformat s
  | .int n => some (fromtimestamp n)
  | v => fromisoformat v.pystr

/-- `_row_to_document`: converts a row into a `Document`, returning `none`
(after logging, in the source) when `date_added` cannot be parsed or the
`document_type` code is not a `DocumentType` member; `metadata` and `source`
are populated as `{}` and `None` unconditionally. -/
def row_to_document (r : Row) : Option Document := do
  let d ← parseDateAdded r.date_added
  let t ← DocumentType.ofCode r.document_type
  some
    { id := r.id
      title := r.title
      author := r.author
      publication_date := r.publication_date
      document_type := t
      date_added := d
      file_path := r.file_path
      metadata := []
      source := none }

/-- The row written by `add_document_metadata`'s INSERT for a document. -/
def rowOfDocument (doc : Document) : Row :=
  { id := doc.id
    title := doc.title
    author := doc.author
    publication_date := doc.publication_date
    document_type := doc.document_type.value
    date_added := .text doc.date_added.isoformat
    file_path := doc.file_path }

/-- `add_document_metadata`: INSERT of the seven persisted columns, committed;
a duplicate primary key raises `IntegrityError`, which is logged and
re-raised, leaving the table unchanged. -/
def add_document_metadata (st : StoreState) (doc : Document) :
    StoreState × Except StoreError Unit :=
  if !st.ready then (st, .error .runtimeError)
  else if st.db.any (fun r => r.id == doc.id) then (st, .error .integrityError)
  else ({ st with db := st.db ++ [rowOfDocument doc] }, .ok ())

/-- The fetch-and-convert shared by `get_document_metadata` and the re-fetch
inside `update_document_metadata`: first row with the id, converted, `none`
when absent or inconvertible. -/
def StoreState.fetch (st : StoreState) (document_id : String) :
    Option Document :=
  match st.db.find? (fun r => r.id == document_id) with
  | some r => row_to_document r
  | none => none

/-- `get_document_metadata`. -/
def get_document_metadata (st : StoreState) (document_id : String) :
    Except StoreError (Option Document) :=
  if !st.ready then .error .runtimeError
  else .ok (st.fetch document_id)

/-- SQLite's default BINARY collation on text values: lexicographic by code
point (equal to byte order of the UTF-8 encoding). -/
def textLe : List Char → List Char → Bool
  | [], _ => true
  | _ :: _, [] => false
  | a :: as, b :: bs =>
      if a.toNat < b.toNat then true
      else if b.toNat < a.toNat then false
      else textLe as bs

/-- SQLite's ordering of values of different storage classes:
`NULL < INTEGER < TEXT`. -/
def SQLValue.classRank : SQLValue → Nat
  | .null => 0
  | .int _ => 1
  | .text _ => 2

/-- SQLite's total value order used by ORDER BY (BINARY collation on text,
numeric order on integers, `NULL` first among ascending values). -/
def SQLValue.sqlLe : SQLValue → SQLValue → Bool
  | .null, .null => true
  | .int m, .int n => m ≤ n
  | .text s, .text t => textLe s.data t.data
  | a, b => a.classRank ≤ b.classRank

/-- Row comparison used for ORDER BY `field` ASC/DESC. -/
def rowLe (field : String) (desc : Bool) (r₁ r₂ : Row) : Bool :=
  if desc then (r₂.col field).sqlLe (r₁.col field)
  else (r₁.col field).sqlLe (r₂.col field)

/-- ORDER BY over a result list (modelled as a stable sort by the column
value; SQLite leaves ties unordered, the model determinizes them). -/
def orderBy (field : String) (desc : Bool) (rows : List Row) : List Row :=
  rows.insertionSort fun r₁ r₂ => rowLe field desc r₁ r₂ = true

/-- SQLite `LIMIT ? OFFSET ?` semantics: a negative offset counts as zero and
a negative limit means no limit. -/
def applyLimitOffset (rows : List Row) (limit offset : Int) : List Row :=
  let dropped := rows.drop offset.toNat
  if limit < 0 then dropped else dropped.take limit.toNat

/-- The equality `WHERE` conditions built by `list_documents_metadata` from
`filters`, in dict-iteration order: `None` values are skipped; a
`document_type` key contributes a condition only when its value is a
`DocumentType` instance (bound as its `.value` code); the other five
filterable column names contribute a condition with the value bound as text;
every other key is skipped. -/
def buildConditions : List (String × PyVal) → List (String × String)
  | [] => []
  | (key, value) :: rest =>
    match value with
    | .pynone => buildConditions rest
    | .pytype t =>
        if key = "document_type" then
          (key, t.value) :: buildConditions rest
        else if key ∈ ["id", "title", "author", "publication_date",
            "file_path"] then
          (key, t.value) :: buildConditions rest
        else buildConditions rest
    | .pystr s =>
        if key = "document_type" then buildConditions rest
        else if key ∈ ["id", "title", "author", "publication_date",
            "file_path"] then
          (key, s) :: buildConditions rest
        else buildConditions rest

/-- A row satisfies one equality condition when the column holds exactly that
text (a `NULL` column never equals anything). -/
def rowMatches (r : Row) (conds : List (String × String)) : Bool :=
  conds.all fun c => r.col c.1 == .text c.2

/-- The six column names accepted by `sort_by`. -/
def sortableFields : List String :=
  ["id", "title", "author", "publication_date", "document_type", "date_added"]

/-- Models Python `str.lower()` (ASCII case folding, which covers every
`sort_order` comparison the store performs). -/
def pyLower (s : String) : String :=
  String.mk (s.data.map fun c =>
    if 65 ≤ c.toNat ∧ c.toNat ≤ 90 then Char.ofNat (c.toNat + 32) else c)

/-- `list_documents_metadata`: filter by the built conditions, ORDER BY
`sort_by` when it is a sortable column name (descending exactly when
`sort_order` lowercases to `"desc"`), apply LIMIT/OFFSET, then convert the
returned rows, silently dropping rows that fail conversion. -/
def list_documents_metadata (st : StoreState)
    (filters : List (String × PyVal)) (offset : Int := 0)
    (limit : Int := 100) (sort_by : Option String := none)
    (sort_order : String := "desc") :
    Except StoreError (List Document) :=
  if !st.ready then .error .runtimeError
  else
    let selected := st.db.filter (fun r => rowMatches r (buildConditions filters))
    let sorted :=
      match sort_by with
      | some f =>
          if f ∈ sortableFields then
            orderBy f (pyLower sort_order = "desc") selected
          else selected
      | none => selected
    .ok ((applyLimitOffset sorted limit offset).filterMap row_to_document)

/-- The SQLite parameter bound for an update value: a `DocumentType` instance
binds as its `.value` code (`str`-subclass binding; the source additionally
special-cases the `document_type` key, with the same bound value), `None`
binds as `NULL`, a string as text. -/
def PyVal.toSQL : PyVal → SQLValue
  | .pynone => .null
  | .pystr s => .text s
  | .pytype t => .text t.value

/-- The five writable columns of `update_document_metadata`. -/
def allowedUpdateFields : List String :=
  ["title", "author", "publication_date", "document_type", "file_path"]

/-- The `SET` assignments built from `updates`: keys outside the whitelist
are dropped, values are bound as SQLite parameters. -/
def buildAssignments (updates : List (String × PyVal)) :
    List (String × SQLValue) :=
  updates.filterMap fun kv =>
    if kv.1 ∈ allowedUpdateFields then some (kv.1, kv.2.toSQL) else none

/-- Whether executing the assignments against a matched row violates a
`NOT NULL` column constraint of the `documents` schema (raising
`aiosqlite.IntegrityError` in the source). -/
def violatesNotNull (assigns : List (String × SQLValue)) : Bool :=
  assigns.any fun a => (a.1 == "title" || a.1 == "document_type") && a.2 == .null

/-- Applying one `SET col = value` assignment to a row.  Writable columns are
the whitelist only; a `NULL` on a `NOT NULL` column never reaches this
function (the statement fails first), so those cases keep the row. -/
def Row.setCol (r : Row) : String × SQLValue → Row
  | ("title", .text s) => { r with title := s }
  | ("author", .text s) => { r with author := some s }
  | ("author", .null) => { r with author := none }
  | ("publication_date", .text s) => { r with publication_date := some s }
  | ("publication_date", .null) => { r with publication_date := none }
  | ("document_type", .text s) => { r with document_type := s }
  | ("file_path", .text s) => { r with file_path := some s }
  | ("file_path", .null) => { r with file_path := none }
  | _ => r

/-- `update_document_metadata`: builds the whitelisted assignments; with none
left it returns the freshly fetched current entity; otherwise it executes the
UPDATE inside a `try` that folds any `aiosqlite.Error` (an injected driver
`fault`, or the deterministic `NOT NULL` violation) into `none`; a zero
rowcount (no row with the id) also yields `none`; on success it commits and
returns the freshly re-fetched entity. -/
def update_document_metadata (st : StoreState) (document_id : String)
    (updates : List (String × PyVal)) (fault : Bool := false) :
    StoreState × Except StoreError (Option Document) :=
  if !st.ready then (st, .error .runtimeError)
  else
    let assigns := buildAssignments updates
    if assigns.isEmpty then (st, .ok (st.fetch document_id))
    else if fault then (st, .ok none)
    else if st.db.all (fun r => !(r.id == document_id)) then (st, .ok none)
    else if violatesNotNull assigns then (st, .ok none)
    else
      let st' := { st with
        db := st.db.map fun r =>
          if r.id == document_id then assigns.foldl Row.setCol r else r }
      (st', .ok (st'.fetch document_id))

/-- `delete_document_metadata`: DELETE committed, returning whether any row
was removed; a driver `fault` inside the `try` is caught and reported as
`false`. -/
def delete_document_metadata (st : StoreState) (document_id : String)
    (fault : Bool := false) : StoreState × Except StoreError Bool :=
  if !st.ready then (st, .error .runtimeError)
  else if fault then (st, .ok false)
  else
    ({ st with db := st.db.filter fun r => !(r.id == document_id) },
      .ok (st.db.any fun r => r.id == document_id))

/-! ### Basic conversion lemmas -/

theorem fromisoformat_isoformat (t : Datetime) :
    fromisoformat t.isoformat = some t := by
  simp [fromisoformat, Datetime.isoformat, List.all_eq_true, List.mem_replicate]

theorem ofCode_value (t : DocumentType) : DocumentType.ofCode t.value = some t := by
  cases t <;> decide

theorem row_to_document_rowOfDocument (doc : Document) :
    row_to_document (rowOfDocument doc) =
      some { doc with metadata := [], source := none } := by
  simp [row_to_document, rowOfDocument, parseDateAdded, fromisoformat_isoformat,
    ofCode_value]

/-! ### C1 -/

/-- C1: for every valid document and every initialized store whose table has
no row with the document's id, `add` inserts the seven persisted columns and
`get` then returns an entity equal to the input in all seven persisted fields
(the timestamp exactly, hence within sub-second tolerance), with
`metadata = {}` and `source = None` regardless of what was set on the input. -/
theorem C1_add_get_round_trip (st : StoreState) (doc : Document)
    (hready : st.ready = true)
    (hfresh : ∀ r ∈ st.db, r.id ≠ doc.id) :
    add_document_metadata st doc =
      ({ st with db := st.db ++ [rowOfDocument doc] }, .ok ()) ∧
    get_document_metadata { st with db := st.db ++ [rowOfDocument doc] }
        doc.id =
      .ok (some { doc with metadata := [], source := none }) := by
  have hany : (st.db.any fun r => r.id == doc.id) = false := by
    simp only [List.any_eq_false, beq_iff_eq]
    exact fun r hr => hfresh r hr
  have hnone : (st.db.find? fun r => r.id == doc.id) = none := by
    simp only [List.find?_eq_none, beq_iff_eq]
    exact fun r hr => hfresh r hr
  have hid : (rowOfDocument doc).id = doc.id := rfl
  have hfind :
      List.find? (fun r => r.id == doc.id) (st.db ++ [rowOfDocument doc]) =
        some (rowOfDocument doc) := by
    rw [List.find?_append, hnone]
    simp [List.find?_cons_of_pos, hid]
  simp only [StoreState.ready, Bool.and_eq_true] at hready
  constructor
  · simp [add_document_metadata, StoreState.ready, hready.1, hready.2, hany]
  · simp [get_document_metadata, StoreState.ready, hready.1, hready.2,
      StoreState.fetch, hfind, row_to_document_rowOfDocument]

def c1st : StoreState := ⟨true, true, []⟩

def c1doc : Document :=
  ⟨"doc1", "Alpha", some "Au", some "2023", .txt, 2, some "/p/a.txt",
    [("custom_key", .pystr "custom_value")], some "file_upload"⟩

theorem C1_add_get_round_trip_witness :
    (c1st.ready = true ∧ ∀ r ∈ c1st.db, r.id ≠ c1doc.id) ∧
    (add_document_metadata c1st c1doc =
        ({ c1st with db := c1st.db ++ [rowOfDocument c1doc] }, .ok ()) ∧
      get_document_metadata
          { c1st with db := c1st.db ++ [rowOfDocument c1doc] } c1doc.id =
        .ok (some { c1doc with metadata := [], source := none })) :=
  ⟨⟨by decide, by decide⟩,
    C1_add_get_round_trip c1st c1doc (by decide) (by decide)⟩

/-! ### C2 -/

/-- C2: for every initialized store already containing a row with id `x`,
adding any document whose id equals `x` raises the integrity/conflict error
(not an update) and leaves the store state — in particular the original row
for `x` — unchanged. -/
theorem C2_duplicate_add_conflict (st : StoreState) (doc : Document)
    (hready : st.ready = true)
    (hdup : ∃ r ∈ st.db, r.id = doc.id) :
    add_document_metadata st doc = (st, .error .integrityError) := by
  have hany : (st.db.any fun r => r.id == doc.id) = true := by
    simp only [List.any_eq_true, beq_iff_eq]
    exact hdup
  simp [add_document_metadata, hready, hany]

def c2row : Row := ⟨"doc1", "Old", none, none, "txt", .text "TT", none⟩

def c2st : StoreState := ⟨true, true, [c2row]⟩

def c2doc : Document :=
  ⟨"doc1", "New", none, none, .pdf, 5, none, [], none⟩

theorem C2_duplicate_add_conflict_witness :
    (c2st.ready = true ∧ ∃ r ∈ c2st.db, r.id = c2doc.id) ∧
    add_document_metadata c2st c2doc = (c2st, .error .integrityError) :=
  ⟨⟨by decide, by decide⟩,
    C2_duplicate_add_conflict c2st c2doc (by decide) (by decide)⟩

/-! ### C3 -/

/-- C3: for every initialized store, `get` returns no entity (as a normal
`.ok none`, never an error) both when no row with the id exists and when the
stored row cannot be converted; and a row fails conversion exactly when its
`date_added` value is unparseable or its `document_type` code is
unrecognized — indistinguishable from absence to the caller. -/
theorem C3_get_absent_or_unconvertible (st : StoreState) (x : String)
    (hready : st.ready = true) :
    ((∀ r ∈ st.db, r.id ≠ x) → get_document_metadata st x = .ok none) ∧
    (∀ r, st.db.find? (fun r => r.id == x) = some r →
      row_to_document r = none → get_document_metadata st x = .ok none) ∧
    (∀ r : Row, row_to_document r = none ↔
      (parseDateAdded r.date_added = none ∨
        DocumentType.ofCode r.document_type = none)) := by
  refine ⟨?_, ?_, ?_⟩
  · intro h
    have hnone : st.db.find? (fun r => r.id == x) = none := by
      simp only [List.find?_eq_none, beq_iff_eq]
      exact h
    simp [get_document_metadata, hready, StoreState.fetch, hnone]
  · intro r hfind hconv
    simp [get_document_metadata, hready, StoreState.fetch, hfind, hconv]
  · intro r
    cases hd : parseDateAdded r.date_added <;>
      cases ht : DocumentType.ofCode r.document_type <;>
        simp [row_to_document, hd, ht]

def c3st : StoreState :=
  ⟨true, true, [⟨"bad", "T", none, none, "exe", .text "garbage", none⟩]⟩

theorem C3_get_absent_or_unconvertible_witness :
    c3st.ready = true ∧
    (((∀ r ∈ c3st.db, r.id ≠ "bad") →
        get_document_metadata c3st "bad" = .ok none) ∧
      (∀ r, c3st.db.find? (fun r => r.id == "bad") = some r →
        row_to_document r = none → get_document_metadata c3st "bad" = .ok none) ∧
      (∀ r : Row, row_to_document r = none ↔
        (parseDateAdded r.date_added = none ∨
          DocumentType.ofCode r.document_type = none))) :=
  ⟨by decide, C3_get_absent_or_unconvertible c3st "bad" (by decide)⟩

/-! ### C8 -/

/-- C8: the store obeys the Uninitialized → Initialized → Closed lifecycle:
every CRUD operation fails with the uninitialized `RuntimeError` whenever the
store is not ready (before `initialize`, and after `close`, which always
leaves the store not ready); a fresh store is not ready; `initialize` while
initialized and `close` while closed are no-ops; and after `close` every CRUD
call fails as uninitialized rather than silently reconnecting. -/
theorem C8_lifecycle (st : StoreState) (doc : Document) (x : String)
    (fs ups : List (String × PyVal)) (off lim : Int) (sb : Option String)
    (so : String) (fault : Bool) :
    (st.ready = false →
      add_document_metadata st doc = (st, .error .runtimeError) ∧
      get_document_metadata st x = .error .runtimeError ∧
      list_documents_metadata st fs off lim sb so = .error .runtimeError ∧
      update_document_metadata st x ups fault = (st, .error .runtimeError) ∧
      delete_document_metadata st x fault = (st, .error .runtimeError)) ∧
    (StoreState.new st.db).ready = false ∧
    (st.isInit = true → st.initStore = st) ∧
    st.initStore.initStore = st.initStore ∧
    st.closeStore.closeStore = st.closeStore ∧
    st.closeStore.ready = false ∧
    (add_document_metadata st.closeStore doc =
      (st.closeStore, .error .runtimeError) ∧
    get_document_metadata st.closeStore x = .error .runtimeError ∧
    list_documents_metadata st.closeStore fs off lim sb so =
      .error .runtimeError ∧
    update_document_metadata st.closeStore x ups fault =
      (st.closeStore, .error .runtimeError) ∧
    delete_document_metadata st.closeStore x fault =
      (st.closeStore, .error .runtimeError)) := by
  have hclosed : st.closeStore.ready = false := by
    cases h : st.connOpen <;>
      simp [StoreState.closeStore, StoreState.ready, h]
  refine ⟨?_, ?_, ?_, ?_, ?_, hclosed, ?_⟩
  · intro h
    refine ⟨?_, ?_, ?_, ?_, ?_⟩ <;>
      simp [add_document_metadata, get_document_metadata,
        list_documents_metadata, update_document_metadata,
        delete_document_metadata, h]
  · simp [StoreState.new, StoreState.ready]
  · intro h
    simp [StoreState.initStore, h]
  · cases h : st.isInit <;> simp [StoreState.initStore, h]
  · cases h : st.connOpen <;> simp [StoreState.closeStore, h]
  · refine ⟨?_, ?_, ?_, ?_, ?_⟩ <;>
      simp [add_document_metadata, get_document_metadata,
        list_documents_metadata, update_document_metadata,
        delete_document_metadata, hclosed]

def c8st : StoreState := StoreState.new []

def c8doc : Document := ⟨"d", "T", none, none, .md, 0, none, [], none⟩

theorem C8_lifecycle_witness :
    c8st.ready = false ∧
    ((c8st.ready = false →
      add_document_metadata c8st c8doc = (c8st, .error .runtimeError) ∧
      get_document_metadata c8st "d" = .error .runtimeError ∧
      list_documents_metadata c8st [] 0 100 none "desc" =
        .error .runtimeError ∧
      update_document_metadata c8st "d" [] false =
        (c8st, .error .runtimeError) ∧
      delete_document_metadata c8st "d" false =
        (c8st, .error .runtimeError)) ∧
    (StoreState.new c8st.db).ready = false ∧
    (c8st.isInit = true → c8st.initStore = c8st) ∧
    c8st.initStore.initStore = c8st.initStore ∧
    c8st.closeStore.closeStore = c8st.closeStore ∧
    c8st.closeStore.ready = false ∧
    (add_document_metadata c8st.closeStore c8doc =
      (c8st.closeStore, .error .runtimeError) ∧
    get_document_metadata c8st.closeStore "d" = .error .runtimeError ∧
    list_documents_metadata c8st.closeStore [] 0 100 none "desc" =
      .error .runtimeError ∧
    update_document_metadata c8st.closeStore "d" [] false =
      (c8st.closeStore, .error .runtimeError) ∧
    delete_document_metadata c8st.closeStore "d" false =
      (c8st.closeStore, .error .runtimeError))) :=
  ⟨by decide,
    C8_lifecycle c8st c8doc "d" [] [] 0 100 none "desc" false⟩

/-! ### Update helper lemmas -/

theorem setCol_id (r : Row) (a : String × SQLValue) : (r.setCol a).id = r.id := by
  rcases a with ⟨k, v⟩
  simp only [Row.setCol]
  split <;> rfl

theorem setCol_date_added (r : Row) (a : String × SQLValue) :
    (r.setCol a).date_added = r.date_added := by
  rcases a with ⟨k, v⟩
  simp only [Row.setCol]
  split <;> rfl

theorem foldl_setCol_id (assigns : List (String × SQLValue)) (r : Row) :
    (assigns.foldl Row.setCol r).id = r.id := by
  induction assigns generalizing r with
  | nil => rfl
  | cons a rest ih => simp [List.foldl_cons, ih, setCol_id]

theorem foldl_setCol_date_added (assigns : List (String × SQLValue)) (r : Row) :
    (assigns.foldl Row.setCol r).date_added = r.date_added := by
  induction assigns generalizing r with
  | nil => rfl
  | cons a rest ih => simp [List.foldl_cons, ih, setCol_date_added]

theorem buildAssignments_filter (updates : List (String × PyVal)) :
    buildAssignments
        (updates.filter fun kv => kv.1 ∈ allowedUpdateFields) =
      buildAssignments updates := by
  induction updates with
  | nil => rfl
  | cons kv rest ih =>
      by_cases h : kv.1 ∈ allowedUpdateFields <;>
        simp [buildAssignments, List.filter_cons, h, ih] <;>
          simpa [buildAssignments] using ih

/-! ### C6 -/

/-- C6: `update` writes only whitelisted keys: the call is unchanged by
deleting all non-whitelisted keys from `updates`; with no recognized field
left it is a no-op still returning the freshly fetched current entity; with a
missing id it returns no entity; the ids and `date_added` columns of the
table are never changed by any update call; and (absent a driver fault or
constraint violation) the returned entity is the freshly re-fetched row of
the resulting state. -/
theorem C6_update_whitelist (st : StoreState) (x : String)
    (ups : List (String × PyVal)) (fault : Bool)
    (hready : st.ready = true) :
    (update_document_metadata st x ups fault =
      update_document_metadata st x
        (ups.filter fun kv => kv.1 ∈ allowedUpdateFields) fault) ∧
    (buildAssignments ups = [] →
      update_document_metadata st x ups fault = (st, .ok (st.fetch x))) ∧
    (fault = false → buildAssignments ups ≠ [] → (∀ r ∈ st.db, r.id ≠ x) →
      update_document_metadata st x ups fault = (st, .ok none)) ∧
    ((update_document_metadata st x ups fault).1.db.map
        (fun r => (r.id, r.date_added)) =
      st.db.map fun r => (r.id, r.date_added)) ∧
    (fault = false → violatesNotNull (buildAssignments ups) = false →
      (update_document_metadata st x ups fault).2 =
        .ok ((update_document_metadata st x ups fault).1.fetch x)) := by
  refine ⟨?_, ?_, ?_, ?_, ?_⟩
  · simp only [update_document_metadata, buildAssignments_filter]
  · intro h
    simp [update_document_metadata, hready, h]
  · intro hf hne habs
    have hne' : (buildAssignments ups).isEmpty = false := by
      simpa [List.isEmpty_iff] using hne
    have hall : (st.db.all fun r => !(r.id == x)) = true := by
      simp only [List.all_eq_true, Bool.not_eq_true', beq_eq_false_iff_ne]
      exact habs
    simp [update_document_metadata, hready, hf, hne', hall]
  · simp only [update_document_metadata]
    split
    · rfl
    · split
      · rfl
      · split
        · rfl
        · split
          · rfl
          · split
            · rfl
            · dsimp only
              rw [List.map_map]
              apply List.map_congr_left
              intro r _
              by_cases h : r.id = x <;>
                simp [h, foldl_setCol_id, foldl_setCol_date_added]
  · intro hf hnn
    simp only [update_document_metadata, hready]
    split
    · simp_all [StoreState.ready]
    · split
      · rfl
      · split
        · simp_all
        · split
          · rename_i hall
            have : st.fetch x = none := by
              simp only [StoreState.fetch]
              have : st.db.find? (fun r => r.id == x) = none := by
                simp only [List.find?_eq_none]
                intro r hr
                have := (List.all_eq_true.mp hall) r hr
                simpa using this
              simp [this]
            simp [this]
          · split
            · simp_all
            · rfl

def c6row : Row := ⟨"doc1", "Old", some "A", none, "txt", .text "TTT", none⟩

def c6st : StoreState := ⟨true, true, [c6row]⟩

theorem C6_update_whitelist_witness :
    c6st.ready = true ∧
    ((update_document_metadata c6st "doc1"
        [("title", .pystr "New"), ("bogus", .pystr "z")] false =
      update_document_metadata c6st "doc1"
        (([("title", .pystr "New"), ("bogus", .pystr "z")] :
            List (String × PyVal)).filter
          fun kv => kv.1 ∈ allowedUpdateFields) false) ∧
    (buildAssignments [("title", .pystr "New"), ("bogus", .pystr "z")] = [] →
      update_document_metadata c6st "doc1"
          [("title", .pystr "New"), ("bogus", .pystr "z")] false =
        (c6st, .ok (c6st.fetch "doc1"))) ∧
    (false = false →
      buildAssignments [("title", .pystr "New"), ("bogus", .pystr "z")] ≠ [] →
      (∀ r ∈ c6st.db, r.id ≠ "doc1") →
      update_document_metadata c6st "doc1"
          [("title", .pystr "New"), ("bogus", .pystr "z")] false =
        (c6st, .ok none)) ∧
    ((update_document_metadata c6st "doc1"
        [("title", .pystr "New"), ("bogus", .pystr "z")] false).1.db.map
          (fun r => (r.id, r.date_added)) =
      c6st.db.map fun r => (r.id, r.date_added)) ∧
    (false = false →
      violatesNotNull
          (buildAssignments [("title", .pystr "New"), ("bogus", .pystr "z")]) =
        false →
      (update_document_metadata c6st "doc1"
          [("title", .pystr "New"), ("bogus", .pystr "z")] false).2 =
        .ok ((update_document_metadata c6st "doc1"
            [("title", .pystr "New"), ("bogus", .pystr "z")] false).1.fetch
          "doc1"))) :=
  ⟨by decide,
    C6_update_whitelist c6st "doc1"
      [("title", .pystr "New"), ("bogus", .pystr "z")] false (by decide)⟩

/-! ### C7 -/

/-- C7: `delete` returns `true` exactly when a row with the id existed (and
the resulting table is the old one with those rows removed), `false` when
nothing matched; a driver fault during the delete is caught and reported as
`false`, and a driver fault during an update write (one with at least one
recognized field) is caught and reported as no entity. -/
theorem C7_delete_and_fault_folding (st : StoreState) (x : String)
    (ups : List (String × PyVal)) (hready : st.ready = true) :
    ((delete_document_metadata st x false).2 = .ok true ↔
      ∃ r ∈ st.db, r.id = x) ∧
    ((delete_document_metadata st x false).1.db =
      st.db.filter fun r => !(r.id == x)) ∧
    delete_document_metadata st x true = (st, .ok false) ∧
    (buildAssignments ups ≠ [] →
      update_document_metadata st x ups true = (st, .ok none)) := by
  refine ⟨?_, ?_, ?_, ?_⟩
  · simp [delete_document_metadata, hready, List.any_eq_true]
  · simp [delete_document_metadata, hready]
  · simp [delete_document_metadata, hready]
  · intro hne
    have hne' : (buildAssignments ups).isEmpty = false := by
      simpa [List.isEmpty_iff] using hne
    simp [update_document_metadata, hready, hne']

def c7row : Row := ⟨"doc1", "T", none, none, "md", .text "", none⟩

def c7st : StoreState := ⟨true, true, [c7row]⟩

theorem C7_delete_and_fault_folding_witness :
    c7st.ready = true ∧
    (((delete_document_metadata c7st "doc1" false).2 = .ok true ↔
      ∃ r ∈ c7st.db, r.id = "doc1") ∧
    ((delete_document_metadata c7st "doc1" false).1.db =
      c7st.db.filter fun r => !(r.id == "doc1")) ∧
    delete_document_metadata c7st "doc1" true = (c7st, .ok false) ∧
    (buildAssignments [("author", .pystr "B")] ≠ [] →
      update_document_metadata c7st "doc1" [("author", .pystr "B")] true =
        (c7st, .ok none))) :=
  ⟨by decide,
    C7_delete_and_fault_folding c7st "doc1" [("author", .pystr "B")]
      (by decide)⟩

/-! ### C9 -/

def c9row : Row := ⟨"doc1", "T", none, none, "txt", .text "", none⟩

def c9st : StoreState := ⟨true, true, [c9row]⟩

/-- C9: `update` does not validate values before writing: on a store whose
row `doc1` is perfectly readable, updating `document_type` to the invalid
code `"weird"` commits the write (the stored column becomes `"weird"`), yet
the call returns no entity because the post-write re-fetch fails conversion,
and a subsequent `get` also returns no entity even though the row still
exists — so a "not found" update result does not imply the state is
unchanged. -/
theorem C9_update_commits_unreadable_row :
    get_document_metadata c9st "doc1" =
      .ok (some ⟨"doc1", "T", none, none, .txt, 0, none, [], none⟩) ∧
    (update_document_metadata c9st "doc1"
        [("document_type", .pystr "weird")] false).2 = .ok none ∧
    (update_document_metadata c9st "doc1"
        [("document_type", .pystr "weird")] false).1.db =
      [{ c9row with document_type := "weird" }] ∧
    get_document_metadata
        (update_document_metadata c9st "doc1"
          [("document_type", .pystr "weird")] false).1 "doc1" =
      .ok none := by
  decide

/-! ### C10 -/

theorem buildConditions_doctype_str (s : String)
    (fs₁ fs₂ : List (String × PyVal)) :
    buildConditions (fs₁ ++ ("document_type", .pystr s) :: fs₂) =
      buildConditions (fs₁ ++ fs₂) := by
  induction fs₁ with
  | nil => simp [buildConditions]
  | cons kv rest ih =>
      rcases kv with ⟨k, v⟩
      cases v <;> simp [buildConditions, ih]

/-- C10: a `document_type` filter whose value is a plain string is silently
dropped wherever it occurs in the filter mapping — the call behaves exactly
as if that filter had not been given — whereas each of the other five
filterable fields contributes its equality condition for a plain string
value. -/
theorem C10_doctype_filter_needs_enum (st : StoreState) (s : String)
    (fs₁ fs₂ : List (String × PyVal)) (off lim : Int) (sb : Option String)
    (so : String) (hready : st.ready = true) :
    list_documents_metadata st (fs₁ ++ ("document_type", .pystr s) :: fs₂)
        off lim sb so =
      list_documents_metadata st (fs₁ ++ fs₂) off lim sb so ∧
    (∀ k ∈ (["id", "title", "author", "publication_date", "file_path"] :
        List String), ∀ v : String, ∀ fs : List (String × PyVal),
      buildConditions ((k, .pystr v) :: fs) = (k, v) :: buildConditions fs) := by
  constructor
  · simp only [list_documents_metadata, buildConditions_doctype_str]
  · intro k hk v fs
    simp only [List.mem_cons, List.mem_singleton, List.not_mem_nil,
      or_false] at hk
    rcases hk with rfl | rfl | rfl | rfl | rfl <;> simp [buildConditions]

def c10row : Row := ⟨"a", "T", some "X", none, "txt", .text "", none⟩

def c10st : StoreState := ⟨true, true, [c10row]⟩

theorem C10_doctype_filter_needs_enum_witness :
    c10st.ready = true ∧
    (list_documents_metadata c10st
        ([] ++ ("document_type", .pystr "pdf") :: [("author", .pystr "X")])
        0 100 none "desc" =
      list_documents_metadata c10st ([] ++ [("author", .pystr "X")])
        0 100 none "desc" ∧
    (∀ k ∈ (["id", "title", "author", "publication_date", "file_path"] :
        List String), ∀ v : String, ∀ fs : List (String × PyVal),
      buildConditions ((k, .pystr v) :: fs) = (k, v) :: buildConditions fs)) :=
  ⟨by decide,
    C10_doctype_filter_needs_enum c10st "pdf" []
      [("author", .pystr "X")] 0 100 none "desc" (by decide)⟩

/-! ### C4 -/

/-- The six filterable column names of the spec. -/
def filterableFields : List String :=
  ["id", "title", "author", "publication_date", "file_path", "document_type"]

/-- Spec-side description of which filters are honored, per the amended
claim: unknown keys and `None` values are dropped, a `document_type` entry is
honored only when its value is a `DocumentType` instance (bound as its code),
and each of the other five filterable fields is honored for plain values. -/
def honoredFilters (filters : List (String × PyVal)) :
    List (String × String) :=
  filters.filterMap fun kv =>
    match kv.2 with
    | .pynone => none
    | .pystr s =>
        if kv.1 ∈ (["id", "title", "author", "publication_date",
            "file_path"] : List String) then
          some (kv.1, s)
        else none
    | .pytype t =>
        if kv.1 ∈ filterableFields then some (kv.1, t.value) else none

theorem buildConditions_eq_honoredFilters (fs : List (String × PyVal)) :
    buildConditions fs = honoredFilters fs := by
  induction fs with
  | nil => rfl
  | cons kv rest ih =>
      rcases kv with ⟨k, v⟩
      cases v with
      | pynone =>
          simpa [buildConditions, honoredFilters, List.filterMap_cons]
            using ih
      | pystr s =>
          by_cases h : k = "document_type"
          · subst h
            simpa [buildConditions, honoredFilters, List.filterMap_cons]
              using ih
          · by_cases h5 : k = "id" ∨ k = "title" ∨ k = "author" ∨
                k = "publication_date" ∨ k = "file_path" <;>
              simp [buildConditions, honoredFilters, List.filterMap_cons,
                h, h5, ih]
      | pytype t =>
          by_cases h : k = "document_type"
          · subst h
            simp [buildConditions, honoredFilters, List.filterMap_cons,
              filterableFields, ih]
          · by_cases h5 : k = "id" ∨ k = "title" ∨ k = "author" ∨
                k = "publication_date" ∨ k = "file_path"
            · have h6 : k = "id" ∨ k = "title" ∨ k = "author" ∨
                  k = "publication_date" ∨ k = "file_path" ∨
                  k = "document_type" := by tauto
              simp [buildConditions, honoredFilters, List.filterMap_cons,
                filterableFields, h, h5, h6, ih]
            · have h6 : ¬(k = "id" ∨ k = "title" ∨ k = "author" ∨
                  k = "publication_date" ∨ k = "file_path" ∨
                  k = "document_type") := by tauto
              simp [buildConditions, honoredFilters, List.filterMap_cons,
                filterableFields, h, h5, h6, ih]

/-- The entity-side value of a filterable field, as text. -/
def Document.fieldText (d : Document) : String → Option String
  | "id" => some d.id
  | "title" => some d.title
  | "author" => d.author
  | "publication_date" => d.publication_date
  | "document_type" => some d.document_type.value
  | "file_path" => d.file_path
  | _ => none

theorem value_ofCode {s : String} {t : DocumentType}
    (h : DocumentType.ofCode s = some t) : t.value = s := by
  cases t <;> simp only [DocumentType.ofCode] at h <;> split_ifs at h <;>
    simp_all [DocumentType.value]

theorem row_to_document_col_text (r : Row) (d : Document)
    (h : row_to_document r = some d) (f : String) (hf : f ∈ filterableFields)
    (v : String) (hcol : r.col f = .text v) :
    d.fieldText f = some v := by
  rcases hd : parseDateAdded r.date_added with _ | dt
  · simp [row_to_document, hd] at h
  rcases ht : DocumentType.ofCode r.document_type with _ | ty
  · simp [row_to_document, hd, ht] at h
  simp only [row_to_document, hd, ht, Option.bind_some, Option.some.injEq,
    bind, Option.bind] at h
  subst h
  have hval := value_ofCode ht
  fin_cases hf
  · simp_all [Document.fieldText, Row.col]
  · simp_all [Document.fieldText, Row.col]
  · rcases hr : r.author with _ | a <;> simp_all [Document.fieldText, Row.col]
  · rcases hr : r.publication_date with _ | a <;>
      simp_all [Document.fieldText, Row.col]
  · rcases hr : r.file_path with _ | a <;>
      simp_all [Document.fieldText, Row.col]
  · simp_all [Document.fieldText, Row.col]

theorem applyLimitOffset_subset (rows : List Row) (limit offset : Int) :
    applyLimitOffset rows limit offset ⊆ rows := by
  unfold applyLimitOffset
  split
  · exact List.drop_subset _ _
  · intro r hr
    exact List.drop_subset _ _ (List.take_subset _ _ hr)

theorem honoredFilters_key_mem (fs : List (String × PyVal))
    (c : String × String) (hc : c ∈ honoredFilters fs) :
    c.1 ∈ filterableFields := by
  simp only [honoredFilters, List.mem_filterMap] at hc
  rcases hc with ⟨⟨k, v⟩, _, hkv⟩
  cases v with
  | pynone => simp at hkv
  | pystr s =>
      dsimp only at hkv
      split_ifs at hkv with h
      · cases Option.some.inj hkv
        simp only [filterableFields, List.mem_cons, List.not_mem_nil,
          or_false] at h ⊢
        tauto
  | pytype t =>
      dsimp only at hkv
      split_ifs at hkv with h
      · cases Option.some.inj hkv
        exact h

/-- C4 (amended): `list` honors exactly the six filterable fields, with the
caveat that a `document_type` filter is honored only when its value is a
`DocumentType` instance; unknown keys, `None` values, and string-valued
`document_type` filters are silently dropped; the remaining filters are
ANDed as equality conditions, so every returned entity matches every honored
filter and every stored convertible row matching all honored filters (within
the page) is returned. -/
theorem C4_filter_semantics (st : StoreState) (fs : List (String × PyVal))
    (off lim : Int) (so : String) (hready : st.ready = true) :
    list_documents_metadata st fs off lim none so =
      .ok ((applyLimitOffset
          (st.db.filter fun r => rowMatches r (honoredFilters fs))
          lim off).filterMap row_to_document) ∧
    (∀ docs, list_documents_metadata st fs off lim none so = .ok docs →
      ∀ d ∈ docs, ∀ c ∈ honoredFilters fs, d.fieldText c.1 = some c.2) := by
  have heq : list_documents_metadata st fs off lim none so =
      .ok ((applyLimitOffset
          (st.db.filter fun r => rowMatches r (honoredFilters fs))
          lim off).filterMap row_to_document) := by
    simp [list_documents_metadata, hready, buildConditions_eq_honoredFilters]
  refine ⟨heq, ?_⟩
  intro docs hdocs d hd c hc
  rw [heq] at hdocs
  cases Except.ok.inj hdocs
  rw [List.mem_filterMap] at hd
  rcases hd with ⟨r, hr, hconv⟩
  have hrin := applyLimitOffset_subset _ _ _ hr
  rw [List.mem_filter] at hrin
  have hmatch := hrin.2
  simp only [rowMatches, List.all_eq_true, beq_iff_eq] at hmatch
  exact row_to_document_col_text r d hconv c.1 (honoredFilters_key_mem fs c hc)
    c.2 (hmatch c hc)

def c4row : Row := ⟨"a", "T", some "X", none, "txt", .text "", none⟩

def c4st : StoreState := ⟨true, true, [c4row]⟩

def c4doc : Document := ⟨"a", "T", some "X", none, .txt, 0, none, [], none⟩

/-- C4 counterexample: with a single stored `txt` document, calling `list`
with the filter mapping `⦃document_type: "pdf"⦄` (a plain string value, a
known field, not `None`) returns that `txt` document, so the claim that all
remaining filters are applied as equality conditions — and hence that every
returned entity matches every present filter — is false as stated. -/
theorem C4_counterexample :
    list_documents_metadata c4st [("document_type", .pystr "pdf")] 0 100 none
        "desc" =
      .ok [c4doc] ∧
    c4doc.fieldText "document_type" ≠ some "pdf" := by
  decide

theorem C4_filter_semantics_witness :
    c4st.ready = true ∧
    (list_documents_metadata c4st [("author", .pystr "X")] 0 100 none "desc" =
      .ok ((applyLimitOffset
          (c4st.db.filter fun r =>
            rowMatches r (honoredFilters [("author", .pystr "X")]))
          100 0).filterMap row_to_document) ∧
    (∀ docs,
      list_documents_metadata c4st [("author", .pystr "X")] 0 100 none
          "desc" =
        .ok docs →
      ∀ d ∈ docs, ∀ c ∈ honoredFilters [("author", .pystr "X")],
        d.fieldText c.1 = some c.2)) :=
  ⟨by decide,
    C4_filter_semantics c4st [("author", .pystr "X")] 0 100 "desc"
      (by decide)⟩

/-! ### C5 -/

theorem textLe_total : ∀ as bs : List Char,
    textLe as bs = true ∨ textLe bs as = true := by
  intro as
  induction as with
  | nil => intro bs; left; rfl
  | cons a as ih =>
      intro bs
      cases bs with
      | nil => right; rfl
      | cons b bs =>
          by_cases h1 : a.toNat < b.toNat
          · left; simp [textLe, h1]
          · by_cases h2 : b.toNat < a.toNat
            · right; simp [textLe, h2]
            · rcases ih bs with h | h
              · left; simp [textLe, h1, h2, h]
              · right; simp [textLe, h1, h2, h]

theorem textLe_trans : ∀ as bs cs : List Char, textLe as bs = true →
    textLe bs cs = true → textLe as cs = true := by
  intro as
  induction as with
  | nil => intro bs cs _ _; rfl
  | cons a as ih =>
      intro bs cs h1 h2
      cases bs with
      | nil => simp [textLe] at h1
      | cons b bs =>
          cases cs with
          | nil => simp [textLe] at h2
          | cons c cs =>
              simp only [textLe] at h1 h2 ⊢
              rcases Nat.lt_trichotomy a.toNat b.toNat with hab | hab | hab
              · rcases Nat.lt_trichotomy b.toNat c.toNat with hbc | hbc | hbc
                · rw [if_pos (by omega)]
                · rw [if_pos (by omega)]
                · rw [if_neg (by omega), if_pos (by omega)] at h2
                  simp at h2
              · rw [if_neg (by omega), if_neg (by omega)] at h1
                rcases Nat.lt_trichotomy b.toNat c.toNat with hbc | hbc | hbc
                · rw [if_pos (by omega)]
                · rw [if_neg (by omega), if_neg (by omega)] at h2 ⊢
                  exact ih bs cs h1 h2
                · rw [if_neg (by omega), if_pos (by omega)] at h2
                  simp at h2
              · rw [if_neg (by omega), if_pos (by omega)] at h1
                simp at h1

theorem sqlLe_total (a b : SQLValue) :
    a.sqlLe b = true ∨ b.sqlLe a = true := by
  cases a <;> cases b <;>
    simp [SQLValue.sqlLe, SQLValue.classRank] <;>
    first
    | omega
    | exact Int.le_total _ _
    | exact textLe_total _ _

theorem sqlLe_trans (a b c : SQLValue) (h₁ : a.sqlLe b = true)
    (h₂ : b.sqlLe c = true) : a.sqlLe c = true := by
  cases a <;> cases b <;> cases c <;>
    simp_all [SQLValue.sqlLe, SQLValue.classRank] <;>
    first
    | omega
    | exact textLe_trans _ _ _ h₁ h₂

theorem rowLe_total (f : String) (desc : Bool) (r₁ r₂ : Row) :
    rowLe f desc r₁ r₂ = true ∨ rowLe f desc r₂ r₁ = true := by
  cases desc <;> simp only [rowLe, Bool.false_eq_true, if_false, if_true] <;>
    exact sqlLe_total _ _

theorem rowLe_trans (f : String) (desc : Bool) (r₁ r₂ r₃ : Row)
    (h₁ : rowLe f desc r₁ r₂ = true) (h₂ : rowLe f desc r₂ r₃ = true) :
    rowLe f desc r₁ r₃ = true := by
  cases desc <;> simp only [rowLe, Bool.false_eq_true, if_false, if_true]
      at h₁ h₂ ⊢ <;>
    first
    | exact sqlLe_trans _ _ _ h₁ h₂
    | exact sqlLe_trans _ _ _ h₂ h₁

theorem orderBy_pairwise (f : String) (desc : Bool) (rows : List Row) :
    (orderBy f desc rows).Pairwise
      (fun r₁ r₂ => rowLe f desc r₁ r₂ = true) := by
  haveI : IsTotal Row (fun r₁ r₂ => rowLe f desc r₁ r₂ = true) :=
    ⟨rowLe_total f desc⟩
  haveI : IsTrans Row (fun r₁ r₂ => rowLe f desc r₁ r₂ = true) :=
    ⟨rowLe_trans f desc⟩
  exact List.sorted_insertionSort _ rows

theorem orderBy_perm (f : String) (desc : Bool) (rows : List Row) :
    (orderBy f desc rows).Perm rows :=
  List.perm_insertionSort _ rows

def c5r (i t : String) : Row := ⟨i, t, none, none, "txt", .text "", none⟩

def c5st : StoreState :=
  ⟨true, true,
    [c5r "1" "eee", c5r "2" "bbb", c5r "3" "ddd", c5r "4" "aaa",
      c5r "5" "ccc"]⟩

def c5doc (i t : String) : Document :=
  ⟨i, t, none, none, .txt, 0, none, [], none⟩

/-- C5: when `sort_by` is one of the six sortable fields, `list` returns the
filtered rows ordered by that field — descending exactly when `sort_order`
lowercases to `"desc"` — with LIMIT/OFFSET applied after filter+sort and
conversion applied to the resulting page (the ordering being genuine: the
sorted rows are pairwise ordered and a permutation of the filtered rows);
any other `sort_by` value behaves exactly as no sorting; the argument
defaults are `offset 0`, `limit 100`, no `sort_by`, `sort_order "desc"`; and
on five stored documents with distinct titles, `sort_by "title"`,
`sort_order "asc"`, `limit 2`, `offset 2` returns the 3rd and 4th titles in
ascending order. -/
theorem C5_sort_and_pagination (st : StoreState) (fs : List (String × PyVal))
    (off lim : Int) (f : String) (so : String) (hready : st.ready = true) :
    (f ∈ sortableFields →
      list_documents_metadata st fs off lim (some f) so =
        .ok ((applyLimitOffset
            (orderBy f (pyLower so = "desc")
              (st.db.filter fun r => rowMatches r (buildConditions fs)))
            lim off).filterMap row_to_document)) ∧
    (∀ rows : List Row,
      (orderBy f (pyLower so = "desc") rows).Pairwise
        (fun r₁ r₂ => rowLe f (pyLower so = "desc") r₁ r₂ = true) ∧
      (orderBy f (pyLower so = "desc") rows).Perm rows) ∧
    (f ∉ sortableFields →
      list_documents_metadata st fs off lim (some f) so =
        list_documents_metadata st fs off lim none so) ∧
    (list_documents_metadata st fs =
      list_documents_metadata st fs 0 100 none "desc") ∧
    list_documents_metadata c5st [] 2 2 (some "title") "asc" =
      .ok [c5doc "5" "ccc", c5doc "3" "ddd"] := by
  refine ⟨?_, ?_, ?_, rfl, by decide⟩
  · intro h
    simp [list_documents_metadata, hready, h]
  · intro rows
    exact ⟨orderBy_pairwise _ _ _, orderBy_perm _ _ _⟩
  · intro h
    simp [list_documents_metadata, hready, h]

theorem C5_sort_and_pagination_witness :
    c5st.ready = true ∧
    (("title" ∈ sortableFields →
      list_documents_metadata c5st [] 2 2 (some "title") "asc" =
        .ok ((applyLimitOffset
            (orderBy "title" (pyLower "asc" = "desc")
              (c5st.db.filter fun r => rowMatches r (buildConditions [])))
            2 2).filterMap row_to_document)) ∧
    (∀ rows : List Row,
      (orderBy "title" (pyLower "asc" = "desc") rows).Pairwise
        (fun r₁ r₂ => rowLe "title" (pyLower "asc" = "desc") r₁ r₂ = true) ∧
      (orderBy "title" (pyLower "asc" = "desc") rows).Perm rows) ∧
    ("title" ∉ sortableFields →
      list_documents_metadata c5st [] 2 2 (some "title") "asc" =
        list_documents_metadata c5st [] 2 2 none "asc") ∧
    (list_documents_metadata c5st [] =
      list_documents_metadata c5st [] 0 100 none "desc") ∧
    list_documents_metadata c5st [] 2 2 (some "title") "asc" =
      .ok [c5doc "5" "ccc", c5doc "3" "ddd"]) :=
  ⟨by decide,
    C5_sort_and_pagination c5st [] 2 2 "title" "asc" (by decide)⟩
